import Mathlib

/-
Verification of the hawkeye test-suite URL builder
(src/test-suite/application.py, class AppURLBuilder).

The embedding translates AppURLBuilder.__init__ and AppURLBuilder.build_url
into executable Lean definitions.  The AppVersion class lives in
application_versions.py, which is not part of the sources; its fields,
full_name and get_version_alias are modelled from the spec (section 3:
fullName = "{version}.{module}.{app}", alias tiers "{module}.{app}" and
"{app}").
-/

set_option autoImplicit false

namespace Hawkeye

/-- Modelled from the spec: the `AppVersion` record of application_versions.py
(a file that is not among the sources).  Field names follow the attribute
names used by application.py: `is_default_for_module` is the module-default
flag (spec: isDefaultForModule) and `is_default_module` is the app-default
flag (spec: isDefaultForApp). -/
structure AppVersion where
  app_id : String
  module : String
  version : String
  is_default_for_module : Bool
  is_default_module : Bool
  http_url : String
  https_url : String
deriving DecidableEq, Repr

/-- Modelled from the spec: derived identity "{version}.{module}.{app}". -/
def full_name (v : AppVersion) : String :=
  v.version ++ "." ++ v.module ++ "." ++ v.app_id

/-- Modelled from the spec: `AppVersion.get_version_alias(app_id, module, version)`.
Both optional arguments absent gives the app id, module alone gives
"{module}.{app}", both give "{version}.{module}.{app}".  The combination
(module absent, version present) is outside the spec's contract ("module can
be None only if version is None") and is rendered the way Python's format
would print the missing module. -/
def get_version_alias (app_id : String) (module version : Option String) : String :=
  match module, version with
  | none, none => app_id
  | some m, none => m ++ "." ++ app_id
  | some m, some v => v ++ "." ++ m ++ "." ++ app_id
  | none, some v => v ++ "." ++ "None" ++ "." ++ app_id

/-- The versions dictionary: Python dict from alias string to AppVersion,
modelled as an association list whose keys stay pairwise distinct because
every write goes through `dinsert`. -/
abbrev VersionsDict := List (String × AppVersion)

/-- Python dict write `d[k] = v`: replace the binding in place when the key
is present, append otherwise. -/
def dinsert : VersionsDict → String → AppVersion → VersionsDict
  | [], k, v => [(k, v)]
  | (k0, v0) :: d, k, v =>
    if k0 = k then (k0, v) :: d else (k0, v0) :: dinsert d k v

/-- Python dict read `d.get(k)`. -/
def dlookup : VersionsDict → String → Option AppVersion
  | [], _ => none
  | (k0, v0) :: d, k => if k0 = k then some v0 else dlookup d k

/-- Python `list(d)`: the keys in insertion order. -/
def dkeys (d : VersionsDict) : List String :=
  d.map (fun p => p.1)

/-- The list `module_default_versions` of AppURLBuilder.__init__. -/
def moduleDefaultVersions (rs : List AppVersion) : List AppVersion :=
  rs.filter (fun v => v.is_default_for_module)

/-- The list `app_default_versions` of AppURLBuilder.__init__: filtered from the
module defaults, not from all records. -/
def appDefaultVersions (rs : List AppVersion) : List AppVersion :=
  (moduleDefaultVersions rs).filter (fun v => v.is_default_module)

/-- The count `sum(1 for v in module_default_versions if v.module == m)`. -/
def countDefaults (rs : List AppVersion) (m : String) : Nat :=
  ((moduleDefaultVersions rs).filter (fun v => v.module = m)).length

/-- The module-name set `{v.module for v in app_versions}`; a Python set
iterates in an unspecified order, modelled here by dropping all but the last
occurrence of each name.  Only membership matters to the claims. -/
def dedupKeys : List String → List String
  | [] => []
  | m :: ms => if m ∈ dedupKeys ms then dedupKeys ms else m :: dedupKeys ms

/-- The construction-time error `ImproperVersionsList` (the spec's
ImproperVersionCount), carrying the data interpolated into its message. -/
inductive ConstructErr where
  | improperVersionsList (module : String) (count : Nat)
deriving DecidableEq, Repr

/-- The message raised by AppURLBuilder.__init__:
"Module {} has {} default versions. Exactly 1 was expected". -/
def improperMsg (m : String) (c : Nat) : String :=
  "Module " ++ m ++ " has " ++ toString c ++
    " default versions. Exactly 1 was expected"

/-- The validation loop of AppURLBuilder.__init__:
`for m in modules: if num_of_default != 1: raise ImproperVersionsList(...)`. -/
def checkDefaults (rs : List AppVersion) : List String → Except ConstructErr Unit
  | [] => .ok ()
  | m :: ms =>
    if countDefaults rs m ≠ 1 then
      .error (.improperVersionsList m (countDefaults rs m))
    else
      checkDefaults rs ms

/-- Tier 1 of the versions dict:
`{app_version.full_name: app_version for app_version in app_versions}`. -/
def dictTier1 (rs : List AppVersion) : VersionsDict :=
  rs.foldl (fun d v => dinsert d (full_name v) v) []

/-- Tier 2: `update({get_version_alias(v.app_id, v.module): v for v in
module_default_versions})`. -/
def dictTier2 (rs : List AppVersion) : VersionsDict :=
  (moduleDefaultVersions rs).foldl
    (fun d v => dinsert d (get_version_alias v.app_id (some v.module) none) v)
    (dictTier1 rs)

/-- Tier 3: `update({get_version_alias(v.app_id): v for v in
app_default_versions})`. -/
def buildDict (rs : List AppVersion) : VersionsDict :=
  (appDefaultVersions rs).foldl
    (fun d v => dinsert d (get_version_alias v.app_id none none) v)
    (dictTier2 rs)

/-- The state AppURLBuilder.__init__ leaves behind. -/
structure AppURLBuilder where
  language : String
  versions_dict : VersionsDict
deriving DecidableEq, Repr

/-- AppURLBuilder.__init__: validate the default counts, then build the
three-tier dict. -/
def construct (rs : List AppVersion) (language : String) :
    Except ConstructErr AppURLBuilder :=
  match checkDefaults rs (dedupKeys (rs.map (fun v => v.module))) with
  | .error e => .error e
  | .ok _ => .ok ⟨language, buildDict rs⟩

/-- Errors of Python's `str.format`: `KeyError` for a replacement field other
than lang, `ValueError` for unbalanced braces. -/
inductive FormatErr where
  | keyError (field : String)
  | valueError (msg : String)
deriving DecidableEq, Repr

/-- One pass of `path.format(lang=language)` over the character list.
`acc = none` means we are in literal text; `acc = some f` means we are inside
a replacement field whose name so far is `f`.  Doubled braces are escapes;
the field `lang` is replaced by the language (the substituted text is not
rescanned); any other field or stray brace is an error, as in Python.
Replacement fields carrying a conversion or format spec are conservatively
treated as errors as well: the claims only exercise the plain field. -/
def pyFmt (lang : String) : Option (List Char) → List Char → Except FormatErr (List Char)
  | none, [] => .ok []
  | some _, [] => .error (.valueError "expected \x7d before end of string")
  | some f, c :: cs =>
    if c = '}' then
      if f = "lang".data then
        (pyFmt lang none cs).map (fun r => lang.data ++ r)
      else
        .error (.keyError (String.mk f))
    else if c = '{' then
      .error (.valueError "unexpected \x7b in field name")
    else
      pyFmt lang (some (f ++ [c])) cs
  | none, '{' :: '{' :: cs => (pyFmt lang none cs).map (fun r => '{' :: r)
  | none, '{' :: cs => pyFmt lang (some []) cs
  | none, '}' :: '}' :: cs => (pyFmt lang none cs).map (fun r => '}' :: r)
  | none, '}' :: _ => .error (.valueError "single \x7d encountered in format string")
  | none, c :: cs => (pyFmt lang none cs).map (fun r => c :: r)

/-- The call `path.format(lang=language)` on strings. -/
def pyFormat (path lang : String) : Except FormatErr String :=
  (pyFmt lang (none : Option (List Char)) path.data).map String.mk

/-- Python `s.rstrip("/")`: drop every trailing slash. -/
def rstripSlash (s : String) : String :=
  String.mk ((s.data.reverse.dropWhile (fun c => c = '/')).reverse)

/-- Python `s.lstrip("/")`: drop every leading slash. -/
def lstripSlash (s : String) : String :=
  String.mk (s.data.dropWhile (fun c => c = '/'))

/-- Python string comparison `s <= t`: lexicographic by code point. -/
def listLeB : List Char → List Char → Bool
  | [], _ => true
  | _ :: _, [] => false
  | a :: as, b :: bs =>
    if a.toNat < b.toNat then true
    else if b.toNat < a.toNat then false
    else listLeB as bs

def strLeB (s t : String) : Bool :=
  listLeB s.data t.data

/-- Insert into a list sorted by `strLeB`. -/
def insortStr (s : String) : List String → List String
  | [] => [s]
  | t :: ts => if strLeB s t then s :: t :: ts else t :: insortStr s ts

/-- Python `sorted(keys)`: ascending lexicographic order. -/
def pySorted (l : List String) : List String :=
  l.foldr insortStr []

/-- Errors raised by AppURLBuilder.build_url: `UnknownVersion` (carrying the
data interpolated into its message) or an error escaping from
`path.format`. -/
inductive UrlErr where
  | unknownVersion (version module : Option String) (known : List String)
  | formatError (e : FormatErr)
deriving DecidableEq, Repr

/-- Python rendering of an optional string ("None" when absent), as
`str.format` prints the version and module arguments. -/
def pyRepr : Option String → String
  | none => "None"
  | some s => s

/-- The message of UnknownVersion:
"Unknown version '{v}' for module '{m}'. Available versions are:\n  {known}"
with known = "\n  ".join(sorted(dict keys)). -/
def unknownMsg (version module : Option String) (known : List String) : String :=
  "Unknown version \x27" ++ pyRepr version ++ "\x27 for module \x27" ++
    pyRepr module ++ "\x27. Available versions are:\n  " ++
    String.intercalate "\n  " known

/-- The lookup step of AppURLBuilder.build_url (the spec's `resolve`):
compute the alias key, fetch it, and raise UnknownVersion when absent. -/
def resolve (b : AppURLBuilder) (app_id : String) (module version : Option String) :
    Except UrlErr AppVersion :=
  match dlookup b.versions_dict (get_version_alias app_id module version) with
  | some v => .ok v
  | none => .error (.unknownVersion version module (pySorted (dkeys b.versions_dict)))

/-- AppURLBuilder.build_url: substitute the language into the path, resolve
the version, pick the http or https base, and join base and path with a
single slash. -/
def build_url (b : AppURLBuilder) (app_id path : String)
    (module version : Option String) (https : Bool) : Except UrlErr String :=
  match pyFormat path b.language with
  | .error e => .error (.formatError e)
  | .ok path2 =>
    match resolve b app_id module version with
    | .error e => .error e
    | .ok app_version =>
      let base_url := if https then app_version.https_url else app_version.http_url
      .ok (rstripSlash base_url ++ "/" ++ lstripSlash path2)

/-- Is `pat` a prefix of the character list? -/
def isPrefixL : List Char → List Char → Bool
  | [], _ => true
  | _ :: _, [] => false
  | a :: as, b :: bs => a = b && isPrefixL as bs

/-- Does the character list contain `pat` as a contiguous run? -/
def containsSub (pat : List Char) : List Char → Bool
  | [] => isPrefixL pat []
  | c :: cs => isPrefixL pat (c :: cs) || containsSub pat cs

/-- Substring test on strings. -/
def strContains (s pat : String) : Bool :=
  containsSub pat.data s.data

/-- The last element of `l` whose key is `k`: the binding a sequence of dict
writes leaves behind. -/
def lastFiltered (key : AppVersion → String) (k : String) :
    List AppVersion → Option AppVersion
  | [] => none
  | v :: vs =>
    match lastFiltered key k vs with
    | some w => some w
    | none => if key v = k then some v else none

/-- Character lists without braces: `str.format` leaves them untouched. -/
def braceFree (cs : List Char) : Prop :=
  ∀ c ∈ cs, c ≠ '{' ∧ c ≠ '}'

/-- Number of literal dots in a string. -/
def dotCount (s : String) : Nat :=
  s.data.count '.'

/-- A record whose identifying components contain no dot. -/
def dotFreeVer (v : AppVersion) : Prop :=
  ('.' ∉ v.app_id.data) ∧ ('.' ∉ v.module.data) ∧ ('.' ∉ v.version.data)

instance : DecidablePred dotFreeVer := fun v => by
  unfold dotFreeVer
  infer_instance

instance : DecidablePred braceFree := fun cs => by
  unfold braceFree
  infer_instance

/- Concrete records used by the claims. -/

/-- Scenario record of P2: module default and app default of app X. -/
def rX1 : AppVersion := ⟨"X", "A", "v1", true, true, "http://x1", "https://x1"⟩

/-- Scenario record of P2: non-default version v2 of module A. -/
def rX2 : AppVersion := ⟨"X", "A", "v2", false, false, "http://x2", "https://x2"⟩

/-- The resolver built from the P2 scenario records with language "en". -/
def bX : AppURLBuilder := ⟨"en", buildDict [rX1, rX2]⟩

/-- A record list whose module A carries two module-default records. -/
def cexC1 : List AppVersion :=
  [⟨"X", "A", "v1", true, false, "http://c1", "https://c1"⟩,
   ⟨"X", "A", "v2", true, false, "http://c2", "https://c2"⟩]

/-- Single record whose https base ends in a slash and whose http base does
not, for the two P5 instances. -/
def rH : AppVersion := ⟨"H", "M", "v", true, true, "https://h:1", "https://h:1/"⟩

/-- Resolver over the single P5 record. -/
def bH : AppURLBuilder := ⟨"en", buildDict [rH]⟩

/-- Record with the module-default flag set but not the app-default flag. -/
def r71 : AppVersion := ⟨"X", "A", "v1", true, false, "http://a1", "https://a1"⟩

/-- Record with the app-default flag set but not the module-default flag. -/
def r72 : AppVersion := ⟨"X", "A", "v2", false, true, "http://a2", "https://a2"⟩

/-- Resolver built from r71 and r72. -/
def b7 : AppURLBuilder := ⟨"en", buildDict [r71, r72]⟩

/-- Record whose app id contains a dot, making its module alias "m.a.b". -/
def r8a : AppVersion := ⟨"a.b", "m", "v", true, false, "http://ra", "https://ra"⟩

/-- Record whose full name is the same string "m.a.b". -/
def r8b : AppVersion := ⟨"b", "a", "m", true, false, "http://rb", "https://rb"⟩

/-- Resolver built from r8a and r8b. -/
def b8 : AppURLBuilder := ⟨"en", buildDict [r8a, r8b]⟩

/-- First record of the duplicated full name "v.m.a.b" (module default). -/
def rA1 : AppVersion := ⟨"a.b", "m", "v", true, false, "http://u1", "https://u1"⟩

/-- Second, later record with the same full name "v.m.a.b". -/
def rA2 : AppVersion := ⟨"a.b", "m", "v", false, false, "http://u2", "https://u2"⟩

/-- Module-default record whose module alias is the same string "v.m.a.b". -/
def rB3 : AppVersion := ⟨"m.a.b", "v", "w", true, false, "http://u3", "https://u3"⟩

/-- Resolver built from rA1, rA2 and rB3. -/
def b10 : AppURLBuilder := ⟨"en", buildDict [rA1, rA2, rB3]⟩

/-- Records sharing the full name "v1.A.X", module default first. -/
def rD1 : AppVersion := ⟨"X", "A", "v1", true, false, "http://d1", "https://d1"⟩

/-- Later record with the same full name "v1.A.X". -/
def rD2 : AppVersion := ⟨"X", "A", "v1", false, false, "http://d2", "https://d2"⟩

/-- Resolver built from rD1 and rD2. -/
def bD : AppURLBuilder := ⟨"en", buildDict [rD1, rD2]⟩

/- Dictionary lemmas. -/

theorem dlookup_dinsert_self (d : VersionsDict) (k : String) (v : AppVersion) :
    dlookup (dinsert d k v) k = some v := by
  induction d with
  | nil => simp [dinsert, dlookup]
  | cons p d ih =>
    obtain ⟨k0, v0⟩ := p
    by_cases h : k0 = k
    · simp [dinsert, dlookup, h]
    · simp [dinsert, dlookup, h, ih]

theorem dlookup_dinsert_ne (d : VersionsDict) (k k2 : String) (v : AppVersion)
    (h : k2 ≠ k) : dlookup (dinsert d k v) k2 = dlookup d k2 := by
  have hne : ¬ k = k2 := fun hh => h hh.symm
  induction d with
  | nil => simp [dinsert, dlookup, hne]
  | cons p d ih =>
    obtain ⟨k0, v0⟩ := p
    rw [dinsert]
    by_cases h0 : k0 = k
    · subst h0
      rw [if_pos rfl, dlookup, dlookup, if_neg hne, if_neg hne]
    · rw [if_neg h0, dlookup, dlookup]
      by_cases h2 : k0 = k2
      · rw [if_pos h2, if_pos h2]
      · rw [if_neg h2, if_neg h2, ih]

theorem dlookup_foldl_dinsert (key : AppVersion → String) (k : String) :
    ∀ (l : List AppVersion) (d : VersionsDict),
      dlookup (l.foldl (fun t v => dinsert t (key v) v) d) k =
        match lastFiltered key k l with
        | some w => some w
        | none => dlookup d k := by
  intro l
  induction l with
  | nil => intro d; rfl
  | cons v l ih =>
    intro d
    rw [List.foldl_cons, ih]
    cases hl : lastFiltered key k l with
    | some w => simp [lastFiltered, hl]
    | none =>
      by_cases hv : key v = k
      · simp [lastFiltered, hl, hv, hv ▸ dlookup_dinsert_self d (key v) v]
      · simp [lastFiltered, hl, hv, dlookup_dinsert_ne d (key v) k v (fun hh => hv hh.symm)]

theorem lastFiltered_eq_some (key : AppVersion → String) (k : String) :
    ∀ (l : List AppVersion) (w : AppVersion),
      lastFiltered key k l = some w → w ∈ l ∧ key w = k := by
  intro l
  induction l with
  | nil => intro w h; cases h
  | cons v l ih =>
    intro w h
    rw [lastFiltered] at h
    cases hl : lastFiltered key k l with
    | some u =>
      rw [hl] at h
      injection h with h
      subst h
      obtain ⟨hw, hk⟩ := ih u hl
      exact ⟨List.mem_cons_of_mem v hw, hk⟩
    | none =>
      rw [hl] at h
      by_cases hv : key v = k
      · rw [if_pos hv] at h
        injection h with h
        subst h
        exact ⟨List.mem_cons_self v l, hv⟩
      · rw [if_neg hv] at h
        cases h

theorem lastFiltered_eq_none (key : AppVersion → String) (k : String)
    (l : List AppVersion) (h : ∀ v ∈ l, key v ≠ k) :
    lastFiltered key k l = none := by
  induction l with
  | nil => rfl
  | cons v l ih =>
    rw [lastFiltered, ih (fun u hu => h u (List.mem_cons_of_mem v hu)),
      if_neg (h v (List.mem_cons_self v l))]

/- Formatting lemmas. -/

theorem pyFmt_cons_char (lang : String) (c : Char) (cs : List Char)
    (h1 : c ≠ '{') (h2 : c ≠ '}') :
    pyFmt lang none (c :: cs) = (pyFmt lang none cs).map (fun r => c :: r) := by
  rw [pyFmt.eq_def]
  split <;> simp_all

theorem pyFmt_braceFree (lang : String) : ∀ cs, braceFree cs → pyFmt lang none cs = .ok cs := by
  intro cs
  induction cs with
  | nil => intro _; rfl
  | cons c cs ih =>
    intro h
    obtain ⟨h1, h2⟩ := h c (List.mem_cons_self c cs)
    rw [pyFmt_cons_char lang c cs h1 h2, ih (fun x hx => h x (List.mem_cons_of_mem c hx))]
    rfl

theorem pyFmt_substLang (lang : String) (p q : List Char)
    (hp : pyFmt lang none p = .ok q) :
    ∀ s, braceFree s →
      pyFmt lang none (s ++ '{' :: 'l' :: 'a' :: 'n' :: 'g' :: '}' :: p) =
        .ok (s ++ (lang.data ++ q)) := by
  intro s
  induction s with
  | nil =>
    intro _
    have hstep : pyFmt lang none ('{' :: 'l' :: 'a' :: 'n' :: 'g' :: '}' :: p) =
        (pyFmt lang none p).map (fun r => lang.data ++ r) := rfl
    rw [List.nil_append, hstep, hp]
    rfl
  | cons c s ih =>
    intro h
    obtain ⟨h1, h2⟩ := h c (List.mem_cons_self c s)
    rw [List.cons_append, pyFmt_cons_char lang c _ h1 h2,
      ih (fun x hx => h x (List.mem_cons_of_mem c hx))]
    rfl

/- Dot-counting lemmas: alias keys of the three tiers have two, one and zero
dots respectively once the name components are dot-free. -/

theorem dotCount_append (s t : String) : dotCount (s ++ t) = dotCount s + dotCount t := by
  rw [dotCount, dotCount, dotCount, String.data_append, List.count_append]

theorem dotCount_eq_zero (s : String) (h : '.' ∉ s.data) : dotCount s = 0 :=
  List.count_eq_zero.mpr h

theorem dotCount_full_name (v : AppVersion) (h : dotFreeVer v) :
    dotCount (full_name v) = 2 := by
  obtain ⟨ha, hm, hv⟩ := h
  rw [full_name, dotCount_append, dotCount_append, dotCount_append, dotCount_append,
    dotCount_eq_zero _ hv, dotCount_eq_zero _ ha, dotCount_eq_zero _ hm]
  rfl

theorem dotCount_module_alias (v : AppVersion) (h : dotFreeVer v) :
    dotCount (get_version_alias v.app_id (some v.module) none) = 1 := by
  obtain ⟨ha, hm, _⟩ := h
  show dotCount (v.module ++ "." ++ v.app_id) = 1
  rw [dotCount_append, dotCount_append,
    dotCount_eq_zero _ ha, dotCount_eq_zero _ hm]
  rfl

theorem dotCount_app_alias (v : AppVersion) (h : dotFreeVer v) :
    dotCount (get_version_alias v.app_id none none) = 0 := by
  exact dotCount_eq_zero _ h.1

/- Sorting lemmas: pySorted is a lexicographically sorted permutation. -/

theorem listLeB_total : ∀ as bs : List Char, listLeB as bs = true ∨ listLeB bs as = true := by
  intro as
  induction as with
  | nil => intro bs; left; rfl
  | cons a as ih =>
    intro bs
    cases bs with
    | nil => right; rfl
    | cons b bs =>
      rw [listLeB, listLeB]
      rcases Nat.lt_trichotomy a.toNat b.toNat with hab | hab | hab
      · left; rw [if_pos hab]
      · rw [if_neg (by omega), if_neg (by omega), if_neg (by omega), if_neg (by omega)]
        exact ih bs
      · right; rw [if_pos hab]

theorem listLeB_trans : ∀ as bs cs : List Char,
    listLeB as bs = true → listLeB bs cs = true → listLeB as cs = true := by
  intro as
  induction as with
  | nil => intro bs cs _ _; rfl
  | cons a as ih =>
    intro bs cs h1 h2
    cases bs with
    | nil => cases h1
    | cons b bs =>
      cases cs with
      | nil => cases h2
      | cons c cs =>
        rw [listLeB] at h1 h2 ⊢
        rcases Nat.lt_trichotomy a.toNat b.toNat with hab | hab | hab
        · rcases Nat.lt_trichotomy b.toNat c.toNat with hbc | hbc | hbc
          · rw [if_pos (by omega)]
          · rw [if_pos (by omega)]
          · rw [if_pos hbc, if_neg (by omega)] at h2
            cases h2
        · rcases Nat.lt_trichotomy b.toNat c.toNat with hbc | hbc | hbc
          · rw [if_pos (by omega)]
          · rw [if_neg (by omega), if_neg (by omega)]
            rw [if_neg (by omega), if_neg (by omega)] at h1
            rw [if_neg (by omega), if_neg (by omega)] at h2
            exact ih bs cs h1 h2
          · rw [if_pos hbc, if_neg (by omega)] at h2
            cases h2
        · rw [if_pos hab, if_neg (by omega)] at h1
          cases h1

theorem strLeB_total (s t : String) : strLeB s t = true ∨ strLeB t s = true :=
  listLeB_total s.data t.data

theorem strLeB_trans (s t u : String) (h1 : strLeB s t = true) (h2 : strLeB t u = true) :
    strLeB s u = true :=
  listLeB_trans s.data t.data u.data h1 h2

theorem perm_insortStr (s : String) : ∀ l : List String, (insortStr s l).Perm (s :: l) := by
  intro l
  induction l with
  | nil => rfl
  | cons t ts ih =>
    rw [insortStr]
    by_cases h : strLeB s t = true
    · rw [if_pos h]
    · rw [if_neg h]
      exact (List.Perm.cons t ih).trans (List.Perm.swap s t ts)

theorem mem_insortStr (s x : String) (l : List String) :
    x ∈ insortStr s l ↔ x = s ∨ x ∈ l := by
  rw [(perm_insortStr s l).mem_iff, List.mem_cons]

theorem sorted_insortStr (s : String) : ∀ l : List String,
    l.Pairwise (fun a b => strLeB a b = true) →
    (insortStr s l).Pairwise (fun a b => strLeB a b = true) := by
  intro l
  induction l with
  | nil => intro _; simp [insortStr]
  | cons t ts ih =>
    intro hp
    rw [List.pairwise_cons] at hp
    obtain ⟨ht, hts⟩ := hp
    rw [insortStr]
    by_cases h : strLeB s t = true
    · rw [if_pos h, List.pairwise_cons]
      refine ⟨?_, List.pairwise_cons.mpr ⟨ht, hts⟩⟩
      intro x hx
      rcases List.mem_cons.mp hx with rfl | hx
      · exact h
      · exact strLeB_trans s t x h (ht x hx)
    · rw [if_neg h, List.pairwise_cons]
      refine ⟨?_, ih hts⟩
      intro x hx
      rcases (mem_insortStr s x ts).mp hx with rfl | hx
      · rcases strLeB_total x t with h2 | h2
        · exact absurd h2 h
        · exact h2
      · exact ht x hx

theorem perm_pySorted (l : List String) : (pySorted l).Perm l := by
  induction l with
  | nil => rfl
  | cons s ts ih =>
    exact (perm_insortStr s (pySorted ts)).trans (List.Perm.cons s ih)

theorem sorted_pySorted (l : List String) :
    (pySorted l).Pairwise (fun a b => strLeB a b = true) := by
  induction l with
  | nil => exact List.Pairwise.nil
  | cons s ts ih => exact sorted_insortStr s (pySorted ts) ih

/- Construction lemmas. -/

theorem mem_dedupKeys (m : String) (l : List String) : m ∈ dedupKeys l ↔ m ∈ l := by
  induction l with
  | nil => simp [dedupKeys]
  | cons a l ih =>
    by_cases h : a ∈ dedupKeys l
    · simp only [dedupKeys, if_pos h, ih, List.mem_cons]
      constructor
      · exact Or.inr
      · rintro (rfl | hm)
        · exact ih.mp h
        · exact hm
    · simp [dedupKeys, if_neg h, ih]

theorem checkDefaults_ok_iff (rs : List AppVersion) (ms : List String) :
    checkDefaults rs ms = .ok () ↔ ∀ m ∈ ms, countDefaults rs m = 1 := by
  induction ms with
  | nil => simp [checkDefaults]
  | cons m ms ih =>
    rw [checkDefaults]
    by_cases h : countDefaults rs m ≠ 1
    · rw [if_pos h]
      simp only [List.mem_cons]
      constructor
      · intro habs; cases habs
      · intro hall; exact absurd (hall m (Or.inl rfl)) h
    · rw [if_neg h, ih]
      push_neg at h
      simp only [List.mem_cons]
      constructor
      · rintro hall m2 (rfl | hm2)
        · exact h
        · exact hall m2 hm2
      · intro hall m2 hm2; exact hall m2 (Or.inr hm2)

theorem checkDefaults_error_charac (rs : List AppVersion) (ms : List String)
    (m : String) (c : Nat)
    (h : checkDefaults rs ms = .error (.improperVersionsList m c)) :
    m ∈ ms ∧ c = countDefaults rs m ∧ c ≠ 1 := by
  induction ms with
  | nil => simp [checkDefaults] at h
  | cons m0 ms ih =>
    rw [checkDefaults] at h
    by_cases h0 : countDefaults rs m0 ≠ 1
    · rw [if_pos h0] at h
      injection h with h
      injection h with h1 h2
      subst h1; subst h2
      exact ⟨List.mem_cons_self m0 ms, rfl, h0⟩
    · rw [if_neg h0] at h
      obtain ⟨hm, hc, hne⟩ := ih h
      exact ⟨List.mem_cons_of_mem m0 hm, hc, hne⟩

theorem construct_ok_dict (rs : List AppVersion) (lang : String) (b : AppURLBuilder)
    (h : construct rs lang = .ok b) : b = ⟨lang, buildDict rs⟩ := by
  rw [construct] at h
  cases hc : checkDefaults rs (dedupKeys (rs.map (fun v => v.module))) with
  | error e => rw [hc] at h; cases h
  | ok u => rw [hc] at h; injection h with h; exact h.symm

/- Tier-by-tier characterization of the versions dict. -/

theorem dlookup_dictTier1 (rs : List AppVersion) (k : String) :
    dlookup (dictTier1 rs) k = lastFiltered (fun v => full_name v) k rs := by
  rw [dictTier1, dlookup_foldl_dinsert (fun v => full_name v) k rs []]
  cases lastFiltered (fun v => full_name v) k rs with
  | some w => rfl
  | none => rfl

theorem dlookup_dictTier2 (rs : List AppVersion) (k : String) :
    dlookup (dictTier2 rs) k =
      match lastFiltered (fun v => get_version_alias v.app_id (some v.module) none) k
          (moduleDefaultVersions rs) with
      | some w => some w
      | none => dlookup (dictTier1 rs) k := by
  rw [dictTier2]
  exact dlookup_foldl_dinsert _ k _ _

theorem dlookup_buildDict (rs : List AppVersion) (k : String) :
    dlookup (buildDict rs) k =
      match lastFiltered (fun v => get_version_alias v.app_id none none) k
          (appDefaultVersions rs) with
      | some w => some w
      | none => dlookup (dictTier2 rs) k := by
  rw [buildDict]
  exact dlookup_foldl_dinsert _ k _ _

theorem dictTier1_isSome_charac (rs : List AppVersion) (k : String)
    (h : (dlookup (dictTier1 rs) k).isSome = true) :
    ∃ v ∈ rs, full_name v = k := by
  rw [dlookup_dictTier1] at h
  cases hl : lastFiltered (fun v => full_name v) k rs with
  | none => rw [hl] at h; cases h
  | some w =>
    obtain ⟨hw, hk⟩ := lastFiltered_eq_some _ k rs w hl
    exact ⟨w, hw, hk⟩

/- Shape lemmas: every outcome of the three operations. -/

theorem construct_shape (rs : List AppVersion) (lang : String) :
    (∃ b, construct rs lang = .ok b) ∨
      ∃ m c, construct rs lang = .error (.improperVersionsList m c) := by
  cases h : construct rs lang with
  | ok b => exact Or.inl ⟨b, rfl⟩
  | error e =>
    cases e with
    | improperVersionsList m c => exact Or.inr ⟨m, c, rfl⟩

theorem resolve_shape (b : AppURLBuilder) (a : String) (mo ve : Option String) :
    (∃ r, resolve b a mo ve = .ok r) ∨
      resolve b a mo ve =
        .error (.unknownVersion ve mo (pySorted (dkeys b.versions_dict))) := by
  rw [resolve]
  cases dlookup b.versions_dict (get_version_alias a mo ve) with
  | some v => exact Or.inl ⟨v, rfl⟩
  | none => exact Or.inr rfl

theorem build_url_shape (b : AppURLBuilder) (a p : String) (mo ve : Option String)
    (hs : Bool) :
    (∃ u, build_url b a p mo ve hs = .ok u) ∨
      build_url b a p mo ve hs =
        .error (.unknownVersion ve mo (pySorted (dkeys b.versions_dict))) ∨
      ∃ e, build_url b a p mo ve hs = .error (.formatError e) := by
  rw [build_url]
  cases hf : pyFormat p b.language with
  | error e => exact Or.inr (Or.inr ⟨e, rfl⟩)
  | ok p2 =>
    rcases resolve_shape b a mo ve with ⟨r, hr⟩ | hr
    · rw [hr]
      exact Or.inl ⟨_, rfl⟩
    · rw [hr]
      exact Or.inr (Or.inl rfl)

/-- C1: construction raises ImproperVersionsList exactly when some module
name present in the records does not have exactly one module-default record,
and the raised error names an offending module together with the count of
module-default records actually found for it (necessarily different from
one). -/
theorem construct_improper_iff (rs : List AppVersion) (lang : String) :
    ((∃ m c, construct rs lang = .error (.improperVersionsList m c)) ↔
      ∃ m, m ∈ rs.map (fun v => v.module) ∧ countDefaults rs m ≠ 1)
    ∧ ∀ m c, construct rs lang = .error (.improperVersionsList m c) →
        m ∈ rs.map (fun v => v.module) ∧ c = countDefaults rs m ∧ c ≠ 1 := by
  constructor
  · cases hc : checkDefaults rs (dedupKeys (rs.map (fun v => v.module))) with
    | ok u =>
      cases u
      have hall := (checkDefaults_ok_iff rs _).mp hc
      constructor
      · rintro ⟨m, c, habs⟩
        rw [construct, hc] at habs
        cases habs
      · rintro ⟨m, hm, hne⟩
        exact absurd (hall m ((mem_dedupKeys m _).mpr hm)) hne
    | error e =>
      cases e with
      | improperVersionsList m c =>
        obtain ⟨hm, hcnt, hne⟩ := checkDefaults_error_charac rs _ m c hc
        constructor
        · intro _
          refine ⟨m, (mem_dedupKeys m _).mp hm, ?_⟩
          rw [hcnt] at hne
          exact hne
        · intro _
          exact ⟨m, c, by rw [construct, hc]⟩
  · intro m c h
    have hc : checkDefaults rs (dedupKeys (rs.map (fun v => v.module))) =
        .error (.improperVersionsList m c) := by
      rw [construct] at h
      cases hc2 : checkDefaults rs (dedupKeys (rs.map (fun v => v.module))) with
      | ok u => rw [hc2] at h; cases h
      | error e =>
        rw [hc2] at h
        injection h with h
        rw [h]
    obtain ⟨hm, hcnt, hne⟩ := checkDefaults_error_charac rs _ m c hc
    exact ⟨(mem_dedupKeys m _).mp hm, hcnt, hne⟩

/-- Witness for C1 at a list where module A has two defaults. -/
theorem construct_improper_iff_witness :
    (∃ m c, construct cexC1 "en" = .error (.improperVersionsList m c)) ∧
    ("A" ∈ cexC1.map (fun v => v.module) ∧ 2 = countDefaults cexC1 "A" ∧ 2 ≠ 1) := by
  have h := construct_improper_iff cexC1 "en"
  exact ⟨h.1.mpr ⟨"A", by decide, by decide⟩, h.2 "A" 2 rfl⟩

/-- C2: on the two-record scenario of P2, the app alias, the module alias and
the full name of v1 all resolve to the v1 record, the full name of v2
resolves to the v2 record, and an unknown version raises UnknownVersion. -/
theorem alias_resolution_scenario :
    construct [rX1, rX2] "en" = .ok bX ∧
    resolve bX "X" none none = .ok rX1 ∧
    resolve bX "X" (some "A") none = .ok rX1 ∧
    resolve bX "X" (some "A") (some "v1") = .ok rX1 ∧
    resolve bX "X" (some "A") (some "v2") = .ok rX2 ∧
    resolve bX "X" (some "A") (some "v3") =
      .error (.unknownVersion (some "v3") (some "A") ["A.X", "X", "v1.A.X", "v2.A.X"]) :=
  ⟨rfl, rfl, rfl, rfl, rfl, rfl⟩

/-- Counterexample to C3: the UnknownVersion error message interpolates the
version and module arguments and the sorted known keys, but not the computed
alias key "v3.A.X" that missed: the message does not contain it. -/
theorem unknown_version_missing_key_cex :
    build_url bX "X" "p" (some "A") (some "v3") false =
      .error (.unknownVersion (some "v3") (some "A") ["A.X", "X", "v1.A.X", "v2.A.X"]) ∧
    get_version_alias "X" (some "A") (some "v3") = "v3.A.X" ∧
    strContains (unknownMsg (some "v3") (some "A") ["A.X", "X", "v1.A.X", "v2.A.X"])
      "v3.A.X" = false :=
  ⟨rfl, rfl, rfl⟩

/-- C3 as amended: when the path formats and the computed key is absent,
build_url raises UnknownVersion carrying the version and module arguments and
the list of all known alias keys sorted lexicographically (a sorted
permutation of the dict keys). -/
theorem unknown_version_sorted_keys (b : AppURLBuilder) (app_id path : String)
    (module version : Option String) (https : Bool) (p2 : String)
    (hfmt : pyFormat path b.language = .ok p2)
    (habs : dlookup b.versions_dict (get_version_alias app_id module version) = none) :
    build_url b app_id path module version https =
      .error (.unknownVersion version module (pySorted (dkeys b.versions_dict)))
    ∧ (pySorted (dkeys b.versions_dict)).Perm (dkeys b.versions_dict)
    ∧ (pySorted (dkeys b.versions_dict)).Pairwise (fun x y => strLeB x y = true) := by
  refine ⟨?_, perm_pySorted _, sorted_pySorted _⟩
  rw [build_url, hfmt, resolve, habs]

/-- Witness for C3 as amended, on the P2 scenario resolver. -/
theorem unknown_version_sorted_keys_witness :
    build_url bX "X" "q" (some "A") (some "v3") false =
      .error (.unknownVersion (some "v3") (some "A") ["A.X", "X", "v1.A.X", "v2.A.X"]) ∧
    (["A.X", "X", "v1.A.X", "v2.A.X"] : List String).Pairwise
      (fun x y => strLeB x y = true) := by
  have h := unknown_version_sorted_keys bX "X" "q" (some "A") (some "v3") false "q" rfl rfl
  exact ⟨h.1, h.2.2⟩

/-- C4: whenever formatting and resolution succeed, build_url returns the
base URL with all trailing slashes stripped, a single slash, and the
formatted path with all leading slashes stripped. -/
theorem slash_normalization (b : AppURLBuilder) (app_id path : String)
    (module version : Option String) (https : Bool) (p2 : String) (r : AppVersion)
    (hfmt : pyFormat path b.language = .ok p2)
    (hres : resolve b app_id module version = .ok r) :
    build_url b app_id path module version https =
      .ok (rstripSlash (if https then r.https_url else r.http_url) ++ "/" ++
        lstripSlash p2) := by
  rw [build_url, hfmt, hres]

/-- Witness for C4: both P5 instances produce "https://h:1/api/x". -/
theorem slash_normalization_witness :
    build_url bH "H" "/api/x" none none true = .ok "https://h:1/api/x" ∧
    build_url bH "H" "api/x" none none false = .ok "https://h:1/api/x" := by
  have h1 := slash_normalization bH "H" "/api/x" none none true "/api/x" rH rfl rfl
  have h2 := slash_normalization bH "H" "api/x" none none false "api/x" rH rfl rfl
  exact ⟨h1, h2⟩

/-- Counterexample to C5: the path "\x7bx\x7d" contains no \x7blang\x7d
token, yet build_url does not return it unchanged modulo slash
normalization: the format pass fails on the unknown placeholder, as Python's
str.format raises KeyError. -/
theorem path_templating_cex :
    strContains "\x7bx\x7d" "\x7blang\x7d" = false ∧
    build_url bX "X" "\x7bx\x7d" (some "A") (some "v1") false =
      .error (.formatError (.keyError "x")) :=
  ⟨rfl, rfl⟩

/-- C5 as amended: the single format pass leaves brace-free paths unchanged,
replaces each well-formed \x7blang\x7d placeholder after brace-free text by
the language without rescanning the substituted text, and on the P4 example
with language "en" produces a URL containing "/en/product/add". -/
theorem path_templating :
    (∀ (lang path2 : String), braceFree path2.data → pyFormat path2 lang = .ok path2)
    ∧ (∀ (lang : String) (s p q : List Char), braceFree s →
        pyFmt lang none p = .ok q →
        pyFmt lang none (s ++ '{' :: 'l' :: 'a' :: 'n' :: 'g' :: '}' :: p) =
          .ok (s ++ (lang.data ++ q)))
    ∧ build_url bX "X" "/\x7blang\x7d/product/add" (some "A") (some "v1") false =
        .ok "http://x1/en/product/add"
    ∧ strContains "http://x1/en/product/add" "/en/product/add" = true := by
  refine ⟨?_, ?_, rfl, rfl⟩
  · intro lang path2 h
    rw [pyFormat, pyFmt_braceFree lang path2.data h]
    rfl
  · intro lang s p q hs hp
    exact pyFmt_substLang lang p q hp s hs

/-- Witness for C5 as amended at concrete inputs. -/
theorem path_templating_witness :
    pyFormat "api/x2" "en" = .ok "api/x2" ∧
    pyFmt "en" none ("ab".data ++ '{' :: 'l' :: 'a' :: 'n' :: 'g' :: '}' :: []) =
      .ok ("ab".data ++ ("en".data ++ [])) := by
  have h := path_templating
  exact ⟨h.1 "en" "api/x2" (by decide), h.2.1 "en" "ab".data [] [] (by decide) rfl⟩

/-- Counterexample to C6: build_url has a failure mode beyond UnknownVersion:
a path with a placeholder other than lang fails with a formatting error
(Python raises KeyError), on a resolver and version for which resolution
would succeed. -/
theorem failure_modes_cex :
    build_url bX "X" "\x7by\x7d" (some "A") (some "v1") false =
      .error (.formatError (.keyError "y")) ∧
    resolve bX "X" (some "A") (some "v1") = .ok rX1 :=
  ⟨rfl, rfl⟩

/-- C6 as amended: every operation fully succeeds or fully fails;
construction fails only with ImproperVersionsList, resolution only with
UnknownVersion, and build_url only with UnknownVersion or an error of the
path-format pass. -/
theorem failure_modes :
    (∀ rs lang, (∃ b, construct rs lang = .ok b) ∨
      ∃ m c, construct rs lang = .error (.improperVersionsList m c))
    ∧ (∀ b a mo ve, (∃ r, resolve b a mo ve = .ok r) ∨
      ∃ ver mo2 ks, resolve b a mo ve = .error (.unknownVersion ver mo2 ks))
    ∧ (∀ b a p mo ve hs, (∃ u, build_url b a p mo ve hs = .ok u) ∨
      (∃ ver mo2 ks, build_url b a p mo ve hs = .error (.unknownVersion ver mo2 ks)) ∨
      ∃ e, build_url b a p mo ve hs = .error (.formatError e)) := by
  refine ⟨construct_shape, ?_, ?_⟩
  · intro b a mo ve
    rcases resolve_shape b a mo ve with h | h
    · exact Or.inl h
    · exact Or.inr ⟨ve, mo, pySorted (dkeys b.versions_dict), h⟩
  · intro b a p mo ve hs
    rcases build_url_shape b a p mo ve hs with h | h | h
    · exact Or.inl h
    · exact Or.inr (Or.inl ⟨ve, mo, pySorted (dkeys b.versions_dict), h⟩)
    · exact Or.inr (Or.inr h)

/-- Counterexample to C7: r72 has isDefaultForApp = true and
isDefaultForModule = false; construction accepts the list, but the app-level
key "X" maps to nothing at all — the record was not folded into the
app-level alias, because app defaults are filtered from the module defaults. -/
theorem app_default_fold_cex :
    r72.is_default_module = true ∧ r72.is_default_for_module = false ∧
    construct [r71, r72] "en" = .ok b7 ∧
    dlookup b7.versions_dict "X" = none :=
  ⟨rfl, rfl, rfl, rfl⟩

/-- C7 as amended: only records carrying both default flags reach the
app-level alias: for every accepted list, the key "{app}" maps to the last
record having both flags and that app id, when one exists; the implication
between the flags is not validated (construction accepts r72's list even
though its app default is not a module default, and then "X" resolves to
nothing). -/
theorem app_default_fold :
    (∀ (rs : List AppVersion) (lang : String) (b : AppURLBuilder) (a : String)
        (r : AppVersion), construct rs lang = .ok b →
      lastFiltered (fun v => get_version_alias v.app_id none none) a
          (appDefaultVersions rs) = some r →
      dlookup b.versions_dict a = some r)
    ∧ construct [r71, r72] "en" = .ok b7
    ∧ dlookup b7.versions_dict "X" = none := by
  refine ⟨?_, rfl, rfl⟩
  intro rs lang b a r hok hlast
  rw [construct_ok_dict rs lang b hok]
  show dlookup (buildDict rs) a = some r
  rw [dlookup_buildDict, hlast]

/-- Witness for C7 as amended: rX1 carries both flags and "X" maps to it. -/
theorem app_default_fold_witness :
    dlookup bX.versions_dict "X" = some rX1 := by
  exact app_default_fold.1 [rX1, rX2] "en" bX "X" rX1 rfl rfl

/-- Counterexample to C8: with dots inside name components the tiers are not
pairwise distinct: construction accepts [r8a, r8b], the tier-1 dict binds
r8b's full name "m.a.b" to r8b, and tier 2 overwrites that binding with r8a
(whose module alias is the same string). -/
theorem alias_tiers_overwrite_cex :
    construct [r8a, r8b] "en" = .ok b8 ∧
    full_name r8b = "m.a.b" ∧
    dlookup (dictTier1 [r8a, r8b]) "m.a.b" = some r8b ∧
    get_version_alias r8a.app_id (some r8a.module) none = "m.a.b" ∧
    dlookup (dictTier2 [r8a, r8b]) "m.a.b" = some r8a ∧
    r8a ≠ r8b := by
  refine ⟨rfl, rfl, rfl, rfl, rfl, by decide⟩

/-- C8 as amended: when app ids, module names and version names contain no
dot, the three alias tiers have pairwise distinct keys, so tier 2 overwrites
no tier-1 binding and tier 3 overwrites no tier-1 or tier-2 binding. -/
theorem alias_tiers_distinct (rs : List AppVersion) (lang : String)
    (b : AppURLBuilder) (hok : construct rs lang = .ok b)
    (hdf : ∀ v ∈ rs, dotFreeVer v) :
    b.versions_dict = buildDict rs
    ∧ (∀ k, (dlookup (dictTier1 rs) k).isSome = true →
        dlookup (dictTier2 rs) k = dlookup (dictTier1 rs) k)
    ∧ (∀ k, (dlookup (dictTier2 rs) k).isSome = true →
        dlookup (buildDict rs) k = dlookup (dictTier2 rs) k) := by
  refine ⟨by rw [construct_ok_dict rs lang b hok], ?_, ?_⟩
  · intro k hk
    obtain ⟨v, hv, hfn⟩ := dictTier1_isSome_charac rs k hk
    have hk2 : dotCount k = 2 := by
      rw [← hfn]
      exact dotCount_full_name v (hdf v hv)
    rw [dlookup_dictTier2, lastFiltered_eq_none _ _ _ ?_]
    intro w hw heq
    have hw2 : w ∈ rs := List.mem_of_mem_filter hw
    have h1 : dotCount k = 1 := by
      rw [← heq]
      exact dotCount_module_alias w (hdf w hw2)
    rw [hk2] at h1
    cases h1
  · intro k hk
    have hne : dotCount k ≠ 0 := by
      rw [dlookup_dictTier2] at hk
      cases hl : lastFiltered (fun v => get_version_alias v.app_id (some v.module) none) k
          (moduleDefaultVersions rs) with
      | some w =>
        obtain ⟨hw, heq⟩ := lastFiltered_eq_some _ _ _ w hl
        have hw2 : w ∈ rs := List.mem_of_mem_filter hw
        rw [← heq, dotCount_module_alias w (hdf w hw2)]
        omega
      | none =>
        rw [hl] at hk
        obtain ⟨v, hv, hfn⟩ := dictTier1_isSome_charac rs k hk
        rw [← hfn, dotCount_full_name v (hdf v hv)]
        omega
    rw [dlookup_buildDict, lastFiltered_eq_none _ _ _ ?_]
    intro w hw heq
    have hw2 : w ∈ rs :=
      List.mem_of_mem_filter (List.mem_of_mem_filter hw)
    exact hne (by rw [← heq]; exact dotCount_app_alias w (hdf w hw2))

/-- Witness for C8 as amended, on the dot-free P2 scenario records. -/
theorem alias_tiers_distinct_witness :
    dlookup (dictTier2 [rX1, rX2]) "v1.A.X" = dlookup (dictTier1 [rX1, rX2]) "v1.A.X" ∧
    dlookup (buildDict [rX1, rX2]) "A.X" = dlookup (dictTier2 [rX1, rX2]) "A.X" := by
  have h := alias_tiers_distinct [rX1, rX2] "en" bX rfl (by decide)
  exact ⟨h.2.1 "v1.A.X" rfl, h.2.2 "A.X" rfl⟩

/-- C9: two resolvers constructed from the same record list and language
behave identically on every resolve and build_url call. -/
theorem construction_deterministic (rs : List AppVersion) (lang : String)
    (b1 b2 : AppURLBuilder) (h1 : construct rs lang = .ok b1)
    (h2 : construct rs lang = .ok b2) :
    (∀ a mo ve, resolve b1 a mo ve = resolve b2 a mo ve) ∧
    (∀ a p mo ve hs, build_url b1 a p mo ve hs = build_url b2 a p mo ve hs) := by
  have hb : b1 = b2 := by
    rw [h1] at h2
    injection h2
  subst hb
  exact ⟨fun _ _ _ => rfl, fun _ _ _ _ _ => rfl⟩

/-- Witness for C9 on the P2 scenario. -/
theorem construction_deterministic_witness :
    resolve bX "X" none none = resolve bX "X" none none ∧
    build_url bX "X" "r" none none false = build_url bX "X" "r" none none false := by
  have h := construction_deterministic [rX1, rX2] "en" bX bX rfl rfl
  exact ⟨h.1 "X" none none, h.2 "X" "r" none none false⟩

/-- Counterexample to C10: rA1 and rA2 share the full name "v.m.a.b" and
every module has exactly one default, so construction succeeds; but resolving
that full name returns rB3 — whose module alias is the same string and was
written over the tier-1 binding — not the later duplicate rA2. -/
theorem duplicate_full_name_cex :
    full_name rA1 = full_name rA2 ∧ rA1 ≠ rA2 ∧
    countDefaults [rA1, rA2, rB3] "m" = 1 ∧
    countDefaults [rA1, rA2, rB3] "v" = 1 ∧
    construct [rA1, rA2, rB3] "en" = .ok b10 ∧
    resolve b10 "a.b" (some "m") (some "v") = .ok rB3 ∧
    rB3 ≠ rA2 := by
  refine ⟨rfl, by decide, rfl, rfl, rfl, rfl, by decide⟩

/-- C10 as amended: construction does not validate duplicate full names, and
when the key coincides with no module-level or app-level alias, the dict maps
it to the last record in the list bearing that full name; resolving such a
key therefore returns the latest matching record. -/
theorem duplicate_full_name_last_wins (rs : List AppVersion) (lang : String)
    (b : AppURLBuilder) (k : String) (hok : construct rs lang = .ok b)
    (h2 : ∀ v ∈ moduleDefaultVersions rs,
      get_version_alias v.app_id (some v.module) none ≠ k)
    (h3 : ∀ v ∈ appDefaultVersions rs, get_version_alias v.app_id none none ≠ k) :
    dlookup b.versions_dict k = lastFiltered (fun v => full_name v) k rs
    ∧ ∀ (a : String) (mo ve : Option String) (r : AppVersion),
        get_version_alias a mo ve = k →
        lastFiltered (fun v => full_name v) k rs = some r →
        resolve b a mo ve = .ok r := by
  have hdict : dlookup b.versions_dict k = lastFiltered (fun v => full_name v) k rs := by
    rw [construct_ok_dict rs lang b hok]
    show dlookup (buildDict rs) k = _
    rw [dlookup_buildDict, lastFiltered_eq_none _ _ _ h3, dlookup_dictTier2,
      lastFiltered_eq_none _ _ _ h2, dlookup_dictTier1]
  refine ⟨hdict, ?_⟩
  intro a mo ve r hkey hlast
  rw [resolve, hkey, hdict, hlast]

/-- Witness for C10 as amended: with no alias collision the duplicated full
name resolves to the later record rD2. -/
theorem duplicate_full_name_last_wins_witness :
    resolve bD "X" (some "A") (some "v1") = .ok rD2 := by
  have h := duplicate_full_name_last_wins [rD1, rD2] "en" bD "v1.A.X" rfl
    (by decide) (by decide)
  exact h.2 "X" (some "A") (some "v1") rD2 rfl rfl

end Hawkeye
